import Mathlib

/-!
# Verification of `geventconnpool` (pool.py, exceptions.py)

A shallow embedding of the `ConnectionPool` class and the `retry` decorator
from `geventconnpool/pool.py`, together with the exception hierarchy of
`geventconnpool/exceptions.py`, and proofs of the specification claims.

Connection handles are opaque to the pool; we model them as `Nat`.
Time delays are measured in tenths of a second so that the backoff
arithmetic of `_add_one` (base 0.1 s, doubling up to the 400 s threshold)
is exact natural-number arithmetic.

Two complementary models are used:

* a *functional* model of single calls (`get`, `closeRun`, `retryGo`,
  `addOneLoop`) that mirrors each method body statement by statement, and
* a *small-step labelled transition system* (`PStep` / `ReachVia`) whose
  transitions are the atomic effects the methods perform between gevent
  suspension points, used for the reachability invariants (capacity bound,
  semaphore/queue consistency, replacement accounting).
-/

/--
Python exception values, as far as the pool distinguishes them.

* `typeError` — raised by the Python runtime itself; in particular,
  `exceptions.py` defines `PoolError.__init__(self, pool, message)` with two
  required arguments, and `ClosedPoolError` inherits it unchanged, so the
  zero-argument instantiation `ClosedPoolError()` at `pool.py` line 111
  raises `TypeError: __init__() takes exactly 3 arguments (1 given)` before
  any `ClosedPoolError` instance exists.
* `nameError` — raised by the Python runtime when a local variable is
  referenced before assignment (the `c` in `get`'s handlers if `popleft`
  itself failed).
* `closedPoolError` — a properly constructed `ClosedPoolError(pool, message)`
  instance (constructible only with both arguments supplied).
* `appExc k` — an application-level exception of kind `k` (e.g.
  `socket.error`, or whatever classes the embedder passes as `exc_classes`).
-/
inductive PyExc where
  | typeError
  | nameError
  | closedPoolError
  | appExc (k : Nat)
deriving DecidableEq, Repr

/--
The value that the statement `raise ClosedPoolError()` (`pool.py` line 111)
actually raises: evaluating the constructor call `ClosedPoolError()` fails
with `TypeError` because the inherited `PoolError.__init__` requires the two
positional arguments `pool` and `message`.
-/
def raiseClosedPoolError : PyExc := PyExc.typeError

/--
The mutable state of a `ConnectionPool` object (`pool.py` lines 28-41):
the `closed` flag, the fixed `size`, the `conn` deque of idle handles,
the current number of available permits of the `BoundedSemaphore` `lock`,
and the `exc_classes` membership test (a tuple of exception classes in the
source, modelled as a Boolean predicate on exceptions).
-/
structure Pool where
  closed : Bool
  size : Nat
  conn : List Nat
  sem : Nat
  excClasses : PyExc → Bool

/-- Outcome of one call to `ConnectionPool.get`. -/
inductive GetRes where
  | ok
  | blocked
  | raised (e : PyExc)
deriving DecidableEq, Repr

/--
Result record of one `get` call: the outcome, the pool state afterwards,
the list of handles `_close_connection` was invoked on, and the number of
replacement tasks handed to `gevent.spawn_later(1, self._add_one)`.
-/
structure GetOut where
  res : GetRes
  pool : Pool
  closeCalls : List Nat
  spawned : Nat

/--
One call of the context manager `ConnectionPool.get` (`pool.py` lines
101-131), run against a caller body `body` (the code inside the `with`
block, which receives the yielded handle) and the subclass close hook
`ch` (`_close_connection`).

Statement-by-statement correspondence:
* `if self.closed: raise ClosedPoolError()` — the constructor call fails,
  so the raised value is `raiseClosedPoolError` (= `TypeError`);
* `self.lock.acquire()` — blocks when no permit is available;
* `c = self.conn.popleft()` — on an empty deque raises `IndexError`, which
  is caught by one of the two `except` clauses; either handler then
  references the never-assigned local `c`, raising `NameError` (the close
  hook is never reached because its argument `c` is evaluated first), and
  the permit taken by `acquire` is not given back;
* body succeeds → `else:` branch appends the handle back and releases;
* body raises an `exc_classes` error → `self._close_connection(c)` is run;
  if it returns, `gevent.spawn_later(1, self._add_one)` schedules one
  replacement and the original error is re-raised with the permit still
  held; if the close hook itself raises, its exception propagates out of
  the `except` block instead of the original one and no replacement is
  scheduled;
* body raises any other error → bare `except:` appends the handle back,
  releases the permit and re-raises.
-/
def ConnectionPool.get (p : Pool) (body : Nat → Except PyExc Unit)
    (ch : Nat → Except PyExc Unit) : GetOut :=
  if p.closed then ⟨.raised raiseClosedPoolError, p, [], 0⟩
  else
    match p.sem with
    | 0 => ⟨.blocked, p, [], 0⟩
    | m + 1 =>
      match p.conn with
      | [] => ⟨.raised .nameError, { p with sem := m }, [], 0⟩
      | c :: rest =>
        match body c with
        | .ok _ => ⟨.ok, { p with conn := rest ++ [c] }, [], 0⟩
        | .error e =>
          if p.excClasses e then
            match ch c with
            | .ok _ => ⟨.raised e, { p with conn := rest, sem := m }, [c], 1⟩
            | .error e2 => ⟨.raised e2, { p with conn := rest, sem := m }, [c], 0⟩
          else ⟨.raised e, { p with conn := rest ++ [c] }, [], 0⟩

/-- Iterate `ConnectionPool.get` `n` times, collecting the outcomes. -/
def ConnectionPool.getN (n : Nat) (p : Pool) (body : Nat → Except PyExc Unit)
    (ch : Nat → Except PyExc Unit) : List GetRes × Pool :=
  match n with
  | 0 => ([], p)
  | n + 1 =>
    let o := ConnectionPool.get p body ch
    let r := ConnectionPool.getN n o.pool body ch
    (o.res :: r.1, r.2)

/--
Instrumentation counters of one call of a `retry`-wrapped function
(`pool.py` lines 148-165): `calls` counts invocations of the wrapped
function `f`; `failures` is the local `failures` counter; `retryLogs`
counts executions of the first `logger.log` (retry message); `exhaustLogs`
counts executions of the second `logger.log` (max-failures message);
`sleeps` counts executions of `gevent.sleep(interval)`.
-/
structure RStats where
  calls : Nat
  failures : Nat
  retryLogs : Nat
  exhaustLogs : Nat
  sleeps : Nat
deriving DecidableEq, Repr

/--
The `while True` loop of the decorated function `deco` in `retry`
(`pool.py` lines 148-165).  The wrapped function is modelled as
`f : Nat → Except E A`, giving the outcome of its `k`-th invocation;
`isExc` is membership in the `exc_classes` tuple; `hasLogger` says whether
`logger is not None`; `maxF` is `max_failures` (`none` = unbounded).
`fuel` bounds the number of loop iterations we unfold (the source loop can
run forever); `none` means the fuel ran out before the call returned.

Loop body: call `f`; on success return its value.  On an `exc_classes`
error: log the retry message (if a logger is set), `gevent.sleep(interval)`,
increment `failures`, and if `max_failures is not None and
failures > max_failures`, log the max-failures message (if a logger is set)
and re-raise the caught error; otherwise loop.  Any other error is not
caught and propagates at once.
-/
def retryGo {E A : Type} (f : Nat → Except E A) (isExc : E → Bool)
    (hasLogger : Bool) (maxF : Option Nat) :
    Nat → Nat → RStats → Option (Except E A × RStats)
  | 0, _, _ => none
  | fuel + 1, k, st =>
    let st1 : RStats := { st with calls := st.calls + 1 }
    match f k with
    | .ok a => some (.ok a, st1)
    | .error e =>
      if isExc e then
        let st2 : RStats :=
          { st1 with
            retryLogs := st1.retryLogs + (if hasLogger then 1 else 0),
            sleeps := st1.sleeps + 1,
            failures := st1.failures + 1 }
        match maxF with
        | some m =>
          if m < st2.failures then
            some (.error e,
              { st2 with
                exhaustLogs := st2.exhaustLogs + (if hasLogger then 1 else 0) })
          else retryGo f isExc hasLogger maxF fuel (k + 1) st2
        | none => retryGo f isExc hasLogger maxF fuel (k + 1) st2
      else some (.error e, st1)

/-- A full `retry`-wrapped call starts with `failures = 0` and all
instrumentation counters at zero. -/
def retryRun {E A : Type} (f : Nat → Except E A) (isExc : E → Bool)
    (hasLogger : Bool) (maxF : Option Nat) (fuel : Nat) :
    Option (Except E A × RStats) :=
  retryGo f isExc hasLogger maxF fuel 0 ⟨0, 0, 0, 0, 0⟩

/--
The `stime` update of `ConnectionPool._add_one` (`pool.py` lines 76-78):
`gevent.sleep(stime)` is followed by `if stime < 400: stime *= 2`.
Delays are in tenths of a second, so the initial `stime = 0.1` is `1` and
the threshold `400` is `4000`.
-/
def nextStime (s : Nat) : Nat := if s < 4000 then 2 * s else s

/-- The duration (in tenths of a second) of the `j`-th sleep performed by
`_add_one`'s creation loop, starting from `stime = 0.1`. -/
def stimeAt (j : Nat) : Nat := nextStime^[j] 1

/--
The `while True` creation loop of `ConnectionPool._add_one` (`pool.py`
lines 70-78): `c = self._new_connection()`; a truthy `c` breaks the loop;
otherwise sleep `stime` and double it below the 400 s threshold.
`create k` is the result of the `k`-th invocation of `_new_connection`
(`none` = falsy/absent).  Returns the produced handle together with the
list of sleep durations performed, or `none` if `fuel` iterations did not
suffice.
-/
def addOneLoop (create : Nat → Option Nat) :
    Nat → Nat → Nat → Option (Nat × List Nat)
  | 0, _, _ => none
  | fuel + 1, k, stime =>
    match create k with
    | some c => some (c, [])
    | none =>
      match addOneLoop create fuel (k + 1) (nextStime stime) with
      | none => none
      | some (c, sl) => some (c, stime :: sl)

/-- The expected sleep sequence: `n` sleeps starting from `stime = s`. -/
def stimes (s n : Nat) : List Nat := (List.range n).map (fun i => nextStime^[i] s)

/-- Observable events of one `ConnectionPool.close` call: a
`_close_connection` invocation on a handle, or the `self.closed = True`
assignment. -/
inductive CloseEv where
  | hook (c : Nat)
  | setClosed
deriving DecidableEq, Repr

/--
The draining loop of `ConnectionPool.close` (`pool.py` lines 92-98) for
`n` remaining iterations, with the subclass `_close_connection` of this
repository (`pool.py` lines 83-88), whose body is `pass` and which
therefore never raises.  Each iteration runs `with self.get() as c:
self._close_connection(c)`: acquire a permit (`none` models blocking
forever when no permit is available, or the `NameError` propagating when
the deque is empty), pop the front handle, invoke the hook, and — `get`'s
clean-exit path — append the handle back and release the permit.
-/
def drainGo : List Nat → Nat → Nat → Option (List Nat × Nat × List CloseEv)
  | conn, sem, 0 => some (conn, sem, [])
  | _, 0, _ + 1 => none
  | conn, sem + 1, n + 1 =>
    match conn with
    | [] => none
    | c :: rest =>
      match drainGo (rest ++ [c]) (sem + 1) n with
      | none => none
      | some (conn', sem', evs) => some (conn', sem', .hook c :: evs)

/--
`ConnectionPool.close` (`pool.py` lines 90-99): if the pool is not yet
closed, drain `size` slots through the normal `get` protocol, invoking
`_close_connection` on each acquired handle, and only then set
`self.closed = True`.  Returns the resulting pool state and the ordered
event trace, or `none` if the drain cannot complete.
-/
def ConnectionPool.closeRun (p : Pool) : Option (Pool × List CloseEv) :=
  if p.closed then some (p, [])
  else
    match drainGo p.conn p.sem p.size with
    | none => none
    | some (conn', sem', evs) =>
      some ({ p with conn := conn', sem := sem', closed := true },
        evs ++ [CloseEv.setClosed])

/--
A snapshot of the pool's shared state as seen at gevent suspension points:
the idle deque `conn`, the multiset (as a list) `checkedOut` of handles
currently held by callers inside a `with pool.get()` block, the number
`inflight` of `_add_one` tasks scheduled or running that have not yet
appended their handle, the semaphore permit count `sem`, and the `closed`
flag.
-/
structure PState where
  conn : List Nat
  checkedOut : List Nat
  inflight : Nat
  sem : Nat
  closed : Bool
deriving DecidableEq, Repr

/--
The state right after `ConnectionPool.__init__` for a pool of capacity
`size` (`pool.py` lines 28-41): `closed = False`, empty deque, the
`BoundedSemaphore(size)` drained to `0` by the `size` synchronous
`self.lock.acquire()` calls, and `size` `_add_one` tasks scheduled via
`gevent.spawn_later`.
-/
def PState.initSt (size : Nat) : PState := ⟨[], [], size, 0, false⟩

/-- Labels of the atomic transitions of the pool. -/
inductive PLabel where
  | addOne (c : Nat)
  | acquire (c : Nat)
  | retOk (c : Nat)
  | retFail (c : Nat)
  | setClosed
deriving DecidableEq, Repr

/--
The atomic transitions of the pool's shared state.  Each constructor is a
block of `pool.py` code with no gevent suspension point inside it:

* `addOne c` — the tail of `_add_one` (lines 80-81): a scheduled creation
  task finishes, `self.conn.append(c)` then `self.lock.release()`;
* `acquire c` — `get` lines 113-115: `self.lock.acquire()` succeeds (one
  permit consumed) and `c = self.conn.popleft()` hands the front handle to
  the caller.  The `closed` flag is not re-checked here: a caller that
  passed the line-110 check before `close()` ran may still acquire;
* `retOk c` — `get`'s clean-exit `else:` branch (lines 130-131) or the
  bare-`except` branch (lines 124-125): the handle is appended back and
  the permit released;
* `retFail c` — `get`'s `exc_classes` branch (lines 117-122): the handle
  is dropped (close hook invoked on it) and one replacement `_add_one`
  task is scheduled via `spawn_later`; the permit is *not* released;
* `setClosed` — `self.closed = True` (line 99).
-/
inductive PStep : PState → PLabel → PState → Prop where
  | addOne (conn out k sem cl c) :
      PStep ⟨conn, out, k + 1, sem, cl⟩ (.addOne c)
        ⟨conn ++ [c], out, k, sem + 1, cl⟩
  | acquire (conn out k sem cl c) :
      PStep ⟨c :: conn, out, k, sem + 1, cl⟩ (.acquire c)
        ⟨conn, c :: out, k, sem, cl⟩
  | retOk (conn l₁ l₂ k sem cl c) :
      PStep ⟨conn, l₁ ++ c :: l₂, k, sem, cl⟩ (.retOk c)
        ⟨conn ++ [c], l₁ ++ l₂, k, sem + 1, cl⟩
  | retFail (conn l₁ l₂ k sem cl c) :
      PStep ⟨conn, l₁ ++ c :: l₂, k, sem, cl⟩ (.retFail c)
        ⟨conn, l₁ ++ l₂, k + 1, sem, cl⟩
  | setClosed (conn out k sem cl) :
      PStep ⟨conn, out, k, sem, cl⟩ .setClosed ⟨conn, out, k, sem, true⟩

/-- States reachable from the post-`__init__` state of a pool of capacity
`size`, remembering the trace of labels taken. -/
inductive ReachVia (size : Nat) : List PLabel → PState → Prop where
  | init : ReachVia size [] (PState.initSt size)
  | step {tr s l t} : ReachVia size tr s → PStep s l t → ReachVia size (tr ++ [l]) t

/-- A state is reachable when some trace leads to it. -/
def Reach (size : Nat) (s : PState) : Prop := ∃ tr, ReachVia size tr s

/-- An `exc_classes` set containing exactly the application exception of
kind `0` (playing the role of `socket.error`). -/
def excC : PyExc → Bool := fun e => decide (e = PyExc.appExc 0)

/-- A concrete already-closed pool of capacity 1. -/
def pClosed : Pool := ⟨true, 1, [7], 1, excC⟩

/-- A concrete open pool of capacity 1 holding the single idle handle `7`. -/
def pOpen1 : Pool := ⟨false, 1, [7], 1, excC⟩

/-- A `with` body that raises the designated connection failure. -/
def bodyFail : Nat → Except PyExc Unit := fun _ => .error (PyExc.appExc 0)

/-- A `with` body that raises an error outside the failure kinds. -/
def bodyOther : Nat → Except PyExc Unit := fun _ => .error (PyExc.appExc 1)

/-- A `with` body that completes cleanly. -/
def bodyOk : Nat → Except PyExc Unit := fun _ => .ok ()

/-- A `_close_connection` hook that returns normally (like the base class's
`pass` body). -/
def chOk : Nat → Except PyExc Unit := fun _ => .ok ()

/-- A subclass `_close_connection` hook that itself raises an error outside
the failure kinds. -/
def chBad : Nat → Except PyExc Unit := fun _ => .error (PyExc.appExc 1)

/--
The two accounting invariants of the pool, proved together by induction
over reachability: the semaphore's permit count always equals the length
of the idle deque, and idle + checked-out + in-flight handles always sum
to exactly the capacity.
-/
theorem reachVia_invariant {size : Nat} {tr : List PLabel} {s : PState}
    (h : ReachVia size tr s) :
    s.sem = s.conn.length ∧
      s.conn.length + s.checkedOut.length + s.inflight = size := by
  induction h with
  | init => simp [PState.initSt]
  | step _ hstep ih =>
    cases hstep <;> simp_all [List.length_append] <;> omega

/--
If no `addOne` label occurs in the trace, nothing was ever appended to the
deque: the deque and checked-out list are still empty and the semaphore
still has no permits.
-/
theorem reachVia_no_addOne {size : Nat} {tr : List PLabel} {s : PState}
    (h : ReachVia size tr s) (hno : ∀ c, PLabel.addOne c ∉ tr) :
    s.conn = [] ∧ s.checkedOut = [] ∧ s.sem = 0 := by
  induction h with
  | init => simp [PState.initSt]
  | step hr hstep ih =>
    rename_i tr' s' l t
    have hno' : ∀ c, PLabel.addOne c ∉ tr' := by
      intro c hc
      exact hno c (by simp [hc])
    have hl : ∀ c, l ≠ PLabel.addOne c := by
      intro c hc
      exact hno c (by simp [hc])
    obtain ⟨h1, h2, h3⟩ := ih hno'
    cases hstep with
    | addOne conn out k sem cl c => exact absurd rfl (hl c)
    | acquire conn out k sem cl c => simp_all
    | retOk conn l₁ l₂ k sem cl c => simp_all
    | retFail conn l₁ l₂ k sem cl c => simp_all
    | setClosed conn out k sem cl => simp_all

/--
C1: For every pool constructed with capacity `C ≥ 1`, in every reachable
state the number of handles in the queue plus the number checked out plus
the number in flight being created never exceeds `C`; in particular at no
point are more than `C` handles concurrently checked out.
-/
theorem capacity_invariant (size : Nat) (hsz : 1 ≤ size) (s : PState)
    (h : Reach size s) :
    s.conn.length + s.checkedOut.length + s.inflight ≤ size ∧
      s.checkedOut.length ≤ size := by
  obtain ⟨tr, htr⟩ := h
  have := reachVia_invariant htr
  omega

/-- Witness for `capacity_invariant` at capacity 1 and the initial state. -/
theorem capacity_invariant_witness :
    (PState.initSt 1).conn.length + (PState.initSt 1).checkedOut.length +
        (PState.initSt 1).inflight ≤ 1 ∧
      (PState.initSt 1).checkedOut.length ≤ 1 :=
  capacity_invariant 1 (by decide) (PState.initSt 1) ⟨[], ReachVia.init⟩

/--
C10: In every reachable state the semaphore's available permits never
exceed the queue length (in fact they are equal), so whenever `get`'s
`lock.acquire()` succeeds the deque is non-empty and `popleft` cannot fail.
-/
theorem sem_never_exceeds_queue (size : Nat) (s : PState) (h : Reach size s) :
    s.sem ≤ s.conn.length ∧ (1 ≤ s.sem → s.conn ≠ []) := by
  obtain ⟨tr, htr⟩ := h
  have h1 := (reachVia_invariant htr).1
  refine ⟨by omega, fun hs => ?_⟩
  have : 0 < s.conn.length := by omega
  exact List.ne_nil_of_length_pos this

/-- Witness for `sem_never_exceeds_queue` at the state reached after the
first `_add_one` completes on a capacity-1 pool. -/
theorem sem_never_exceeds_queue_witness :
    (⟨[3], [], 0, 1, false⟩ : PState).sem ≤
        (⟨[3], [], 0, 1, false⟩ : PState).conn.length ∧
      (1 ≤ (⟨[3], [], 0, 1, false⟩ : PState).sem →
        (⟨[3], [], 0, 1, false⟩ : PState).conn ≠ []) :=
  sem_never_exceeds_queue 1 ⟨[3], [], 0, 1, false⟩
    ⟨[PLabel.addOne 3], ReachVia.step ReachVia.init (PStep.addOne [] [] 0 0 false 3)⟩

/--
C4: After a connection-level failure in `get` the permit is not released
synchronously (`retFail` keeps `sem` unchanged and records one pending
replacement); the only transition that settles a pending replacement is
`addOne`, which atomically appends the new handle to the deque and
releases the permit; and in any trace from the initial state, a non-empty
deque implies some `addOne` already occurred — i.e. the replacement task's
release is the only path that repopulates slots after a loss and the only
path that enqueues the very first connections at startup.
-/
theorem loss_replacement_accounting :
    (∀ s c t, PStep s (.retFail c) t →
        t.sem = s.sem ∧ t.inflight = s.inflight + 1 ∧ t.conn = s.conn) ∧
    (∀ s l t, PStep s l t → t.inflight < s.inflight →
        ∃ c, l = .addOne c ∧ t.conn = s.conn ++ [c] ∧ t.sem = s.sem + 1) ∧
    (∀ size tr s, ReachVia size tr s → s.conn ≠ [] →
        ∃ c, PLabel.addOne c ∈ tr) := by
  refine ⟨?_, ?_, ?_⟩
  · intro s c t hstep
    cases hstep
    simp
  · intro s l t hstep hlt
    cases hstep with
    | addOne conn out k sem cl c => exact ⟨c, rfl, rfl, rfl⟩
    | acquire conn out k sem cl c => simp at hlt
    | retOk conn l₁ l₂ k sem cl c => simp at hlt
    | retFail conn l₁ l₂ k sem cl c => simp at hlt
    | setClosed conn out k sem cl => simp at hlt
  · intro size tr s hr hne
    by_contra hthere
    push_neg at hthere
    exact hne (reachVia_no_addOne hr hthere).1

/-- Witness for `loss_replacement_accounting`: its third conjunct applied
to the one-step trace that populates a capacity-1 pool. -/
theorem loss_replacement_accounting_witness :
    ∃ c, PLabel.addOne c ∈ [PLabel.addOne 3] :=
  loss_replacement_accounting.2.2 1 [PLabel.addOne 3] ⟨[3], [], 0, 1, false⟩
    (ReachVia.step ReachVia.init (PStep.addOne [] [] 0 0 false 3))
    (by simp)

/--
C2 (code behaviour at the failing input): after the pool is closed, every
subsequent `get` call fails immediately and performs no slot-accounting
mutation, and this holds for arbitrarily many attempts — but the raised
exception is `TypeError`, not `ClosedPoolError`, because the zero-argument
call `ClosedPoolError()` at `pool.py` line 111 cannot construct an
instance (`PoolError.__init__` requires `pool` and `message`).
-/
theorem closed_pool_get_behavior (p : Pool) (body ch : Nat → Except PyExc Unit)
    (hp : p.closed = true) (n : Nat) :
    (ConnectionPool.getN n p body ch).1 =
        List.replicate n (GetRes.raised PyExc.typeError) ∧
    (ConnectionPool.getN n p body ch).2 = p ∧
    (ConnectionPool.get p body ch).res = .raised raiseClosedPoolError ∧
    (ConnectionPool.get p body ch).closeCalls = [] ∧
    (ConnectionPool.get p body ch).spawned = 0 ∧
    raiseClosedPoolError ≠ PyExc.closedPoolError := by
  have hg : ConnectionPool.get p body ch = ⟨.raised raiseClosedPoolError, p, [], 0⟩ := by
    simp [ConnectionPool.get, hp]
  have key : ∀ m, (ConnectionPool.getN m p body ch).1 =
      List.replicate m (GetRes.raised PyExc.typeError) ∧
      (ConnectionPool.getN m p body ch).2 = p := by
    intro m
    induction m with
    | zero => simp [ConnectionPool.getN]
    | succ m ih =>
      simp [ConnectionPool.getN, hg, raiseClosedPoolError, List.replicate_succ,
        ih.1, ih.2]
  exact ⟨(key n).1, (key n).2, by simp [hg], by simp [hg], by simp [hg], by decide⟩

/-- Witness for `closed_pool_get_behavior`: three consecutive acquisition
attempts on a concrete closed pool. -/
theorem closed_pool_get_behavior_witness :
    (ConnectionPool.getN 3 pClosed bodyOk chOk).1 =
        List.replicate 3 (GetRes.raised PyExc.typeError) ∧
    (ConnectionPool.getN 3 pClosed bodyOk chOk).2 = pClosed ∧
    (ConnectionPool.get pClosed bodyOk chOk).res = .raised raiseClosedPoolError ∧
    (ConnectionPool.get pClosed bodyOk chOk).closeCalls = [] ∧
    (ConnectionPool.get pClosed bodyOk chOk).spawned = 0 ∧
    raiseClosedPoolError ≠ PyExc.closedPoolError :=
  closed_pool_get_behavior pClosed bodyOk chOk rfl 3

/--
C3 counterexample: on a concrete open pool whose `with` body raises the
designated connection failure, a subclass close hook that itself raises
has its error *propagated to the caller in place of the original error*,
and no replacement is scheduled — the close hook's own errors are not
ignored, contradicting the claim.
-/
theorem get_closehook_error_not_ignored :
    (ConnectionPool.get pOpen1 bodyFail chBad).res = .raised (PyExc.appExc 1) ∧
    (ConnectionPool.get pOpen1 bodyFail chBad).res ≠ .raised (PyExc.appExc 0) ∧
    (ConnectionPool.get pOpen1 bodyFail chBad).spawned = 0 := by
  refine ⟨rfl, by decide, rfl⟩

/--
C3 (amended): when the `with` body raises an error matching `exc_classes`,
the handle is not returned to the deque, the permit is not released, and
the close hook is invoked on the handle; if the close hook returns
normally, one replacement is scheduled (after the fixed 1-second delay of
`spawn_later`) and the original error is re-raised unchanged; if the close
hook itself raises, its error propagates instead and no replacement is
scheduled.
-/
theorem get_connfail_behavior (p : Pool) (c : Nat) (rest : List Nat)
    (e : PyExc) (body ch : Nat → Except PyExc Unit)
    (hcl : p.closed = false) (hq : p.conn = c :: rest) (hs : 1 ≤ p.sem)
    (hb : body c = .error e) (he : p.excClasses e = true) :
    (ConnectionPool.get p body ch).pool.conn = rest ∧
    (ConnectionPool.get p body ch).closeCalls = [c] ∧
    (ConnectionPool.get p body ch).pool.sem + 1 = p.sem ∧
    (ch c = .ok () → (ConnectionPool.get p body ch).res = .raised e ∧
        (ConnectionPool.get p body ch).spawned = 1) ∧
    (∀ e2, ch c = .error e2 → (ConnectionPool.get p body ch).res = .raised e2 ∧
        (ConnectionPool.get p body ch).spawned = 0) := by
  obtain ⟨cl, sz, cn, sm, ex⟩ := p
  simp only at hcl hq hs he
  subst hcl hq
  cases sm with
  | zero => omega
  | succ m =>
    simp only [ConnectionPool.get, hb, he]
    cases hch : ch c with
    | ok u =>
      cases u
      simp [hch]
    | error e2 =>
      simp [hch]

/-- Witness for `get_connfail_behavior` with the well-behaved close hook. -/
theorem get_connfail_behavior_witness :
    (ConnectionPool.get pOpen1 bodyFail chOk).closeCalls = [7] ∧
    (ConnectionPool.get pOpen1 bodyFail chOk).spawned = 1 ∧
    (ConnectionPool.get pOpen1 bodyFail chOk).pool.conn = [] := by
  have h := get_connfail_behavior pOpen1 7 [] (PyExc.appExc 0) bodyFail chOk
    rfl rfl (by decide) rfl rfl
  exact ⟨h.2.1, (h.2.2.2.1 rfl).2, h.1⟩

/--
C5: when the `with` body raises an error not matching `exc_classes`, the
same handle is appended back to the deque, the permit is released (the
semaphore count is restored), the original error is re-raised unchanged,
the close hook is not invoked, no replacement is scheduled, and the handle
remains available in the queue for a subsequent acquisition.
-/
theorem get_unrelated_error_behavior (p : Pool) (c : Nat) (rest : List Nat)
    (e : PyExc) (body ch : Nat → Except PyExc Unit)
    (hcl : p.closed = false) (hq : p.conn = c :: rest) (hs : 1 ≤ p.sem)
    (hb : body c = .error e) (he : p.excClasses e = false) :
    (ConnectionPool.get p body ch).res = .raised e ∧
    (ConnectionPool.get p body ch).pool.conn = rest ++ [c] ∧
    (ConnectionPool.get p body ch).pool.sem = p.sem ∧
    c ∈ (ConnectionPool.get p body ch).pool.conn ∧
    (ConnectionPool.get p body ch).closeCalls = [] ∧
    (ConnectionPool.get p body ch).spawned = 0 := by
  obtain ⟨cl, sz, cn, sm, ex⟩ := p
  simp only at hcl hq hs he
  subst hcl hq
  cases sm with
  | zero => omega
  | succ m =>
    simp [ConnectionPool.get, hb, he]

/-- Witness for `get_unrelated_error_behavior` on the concrete capacity-1
pool: the handle `7` is back in the deque afterwards. -/
theorem get_unrelated_error_behavior_witness :
    (ConnectionPool.get pOpen1 bodyOther chOk).res = .raised (PyExc.appExc 1) ∧
    7 ∈ (ConnectionPool.get pOpen1 bodyOther chOk).pool.conn ∧
    (ConnectionPool.get pOpen1 bodyOther chOk).pool.sem = pOpen1.sem := by
  have h := get_unrelated_error_behavior pOpen1 7 [] (PyExc.appExc 1) bodyOther chOk
    rfl rfl (by decide) rfl (by decide)
  exact ⟨h.1, h.2.2.2.1, h.2.2.1⟩

/--
Helper for C6: from any loop state with `failures ≤ m`, if every
invocation of `f` raises a matching error, the loop performs
`m + 1 - failures` further invocations, each one logging a retry message
and sleeping once, and then raises the last error with the max-failures
message logged exactly once.
-/
theorem retryGo_allFail {E A : Type} (f : Nat → Except E A) (isExc : E → Bool)
    (err : Nat → E) (m : Nat)
    (hf : ∀ k, f k = .error (err k)) (hx : ∀ k, isExc (err k) = true) :
    ∀ fuel k st, st.failures ≤ m → m + 1 - st.failures ≤ fuel →
      retryGo f isExc true (some m) fuel k st =
        some (.error (err (k + (m - st.failures))),
          ⟨st.calls + (m + 1 - st.failures), m + 1,
            st.retryLogs + (m + 1 - st.failures), st.exhaustLogs + 1,
            st.sleeps + (m + 1 - st.failures)⟩) := by
  intro fuel
  induction fuel with
  | zero =>
    intro k st h1 h2
    omega
  | succ fuel ih =>
    intro k st h1 h2
    rw [retryGo]
    simp only [hf k, hx (k : Nat), if_true]
    rcases Nat.lt_or_ge st.failures m with hlt | hge
    · have hcond : ¬ (m < st.failures + 1) := by omega
      simp only [hcond, if_false]
      rw [ih (k + 1) _ (by simp; omega) (by simp; omega)]
      simp only [Option.some.injEq, Prod.mk.injEq]
      constructor
      · have : k + 1 + (m - (st.failures + 1)) = k + (m - st.failures) := by omega
        simp [this]
      · simp only [RStats.mk.injEq, if_true]
        refine ⟨by omega, trivial, by omega, trivial, by omega⟩
    · have heq : st.failures = m := by omega
      have hcond : m < st.failures + 1 := by omega
      simp only [hcond, if_true]
      simp [heq]

/--
C6: when every invocation of the wrapped operation raises an error of a
designated failure kind, `max_failures` is a finite `m`, and a logger is
configured, the `retry` wrapper invokes the underlying operation exactly
`m + 1` times, then propagates the last original error, with the
exhaustion logging callback firing exactly once (and the retry logging
callback and the inter-retry sleep firing `m + 1` times).
-/
theorem retry_exhausts_after_max_failures {E A : Type} (f : Nat → Except E A)
    (isExc : E → Bool) (err : Nat → E) (m : Nat)
    (hf : ∀ k, f k = .error (err k)) (hx : ∀ k, isExc (err k) = true)
    (fuel : Nat) (hfuel : m + 1 ≤ fuel) :
    retryRun f isExc true (some m) fuel =
      some (.error (err m), ⟨m + 1, m + 1, m + 1, 1, m + 1⟩) := by
  unfold retryRun
  rw [retryGo_allFail f isExc err m hf hx fuel 0 ⟨0, 0, 0, 0, 0⟩ (by simp)
    (by simpa using hfuel)]
  simp

/-- Witness for `retry_exhausts_after_max_failures`: scenario D of the
spec with `max_failures = 2` — three invocations, the third error
propagated, exhaustion logged once. -/
theorem retry_exhausts_after_max_failures_witness :
    retryRun (fun k => (Except.error (PyExc.appExc k) : Except PyExc Unit))
        (fun _ => true) true (some 2) 3 =
      some (.error (PyExc.appExc 2), ⟨3, 3, 3, 1, 3⟩) :=
  retry_exhausts_after_max_failures
    (fun k => (Except.error (PyExc.appExc k) : Except PyExc Unit))
    (fun _ => true) (fun k => PyExc.appExc k) 2 (fun _ => rfl) (fun _ => rfl)
    3 (by omega)

/--
C7: if the first invocation of the wrapped operation raises an error that
is not of a designated failure kind, the error propagates immediately:
the operation is invoked exactly once, no retry sleep happens, the
`failures` counter is never incremented, and neither logging callback
fires — regardless of the logger and `max_failures` configuration.
-/
theorem retry_unmatched_error_propagates {E A : Type} (f : Nat → Except E A)
    (isExc : E → Bool) (hasLogger : Bool) (maxF : Option Nat) (e : E)
    (hf : f 0 = .error e) (hx : isExc e = false)
    (fuel : Nat) (hfuel : 1 ≤ fuel) :
    retryRun f isExc hasLogger maxF fuel = some (.error e, ⟨1, 0, 0, 0, 0⟩) := by
  cases fuel with
  | zero => omega
  | succ fuel =>
    unfold retryRun
    rw [retryGo]
    simp [hf, hx]

/-- Witness for `retry_unmatched_error_propagates`: an error of
undesignated kind `appExc 5` against failure set `{appExc 0}`. -/
theorem retry_unmatched_error_propagates_witness :
    retryRun (fun _ => (Except.error (PyExc.appExc 5) : Except PyExc Unit))
        excC true (some 2) 7 =
      some (.error (PyExc.appExc 5), ⟨1, 0, 0, 0, 0⟩) :=
  retry_unmatched_error_propagates
    (fun _ => (Except.error (PyExc.appExc 5) : Except PyExc Unit))
    excC true (some 2) (PyExc.appExc 5) rfl (by decide) 7 (by omega)

/-- Unfolding lemma for `stimes`: the first sleep uses the current `stime`
and the remaining ones continue from the doubled value. -/
theorem stimes_succ (s n : Nat) : stimes s (n + 1) = s :: stimes (nextStime s) n := by
  unfold stimes
  rw [List.range_succ_eq_map, List.map_cons, List.map_map]
  refine congrArg₂ List.cons rfl ?_
  refine List.map_congr_left (fun i _ => ?_)
  simp [Function.comp, Function.iterate_succ_apply]

/-- The `j`-th sleep duration of `_add_one` is `0.1 · 2^j` seconds, capped
at `409.6` seconds (in tenths: `min (2^j) 4096`). -/
theorem stimeAt_eq (j : Nat) : stimeAt j = min (2 ^ j) 4096 := by
  induction j with
  | zero => simp [stimeAt]
  | succ j ih =>
    have hstep : stimeAt (j + 1) = nextStime (stimeAt j) :=
      Function.iterate_succ_apply' nextStime j 1
    rw [hstep, ih, nextStime]
    rcases le_or_lt j 11 with hj | hj
    · have h1 : 2 ^ j ≤ 2048 := by
        calc 2 ^ j ≤ 2 ^ 11 := Nat.pow_le_pow_right (by norm_num) hj
          _ = 2048 := by norm_num
      have h2 : 2 ^ (j + 1) ≤ 4096 := by
        calc 2 ^ (j + 1) ≤ 2 ^ 12 := Nat.pow_le_pow_right (by norm_num) (by omega)
          _ = 4096 := by norm_num
      rw [min_eq_left (by omega), if_pos (by omega), min_eq_left h2, pow_succ]
      omega
    · have h3 : (4096 : Nat) ≤ 2 ^ j := by
        calc (4096 : Nat) = 2 ^ 12 := by norm_num
          _ ≤ 2 ^ j := Nat.pow_le_pow_right (by norm_num) (by omega)
      have h4 : (4096 : Nat) ≤ 2 ^ (j + 1) :=
        le_trans h3 (Nat.pow_le_pow_right (by norm_num) (by omega))
      rw [min_eq_right h3, if_neg (by omega), min_eq_right h4]

/-- The creation loop of `_add_one`, started at index `k` with current
delay `s`: if the next `n` creation attempts are falsy and the one after
succeeds with `c`, the loop returns `c` after sleeping the `n` delays
`s, nextStime s, …`. -/
theorem addOneLoop_go (create : Nat → Option Nat) :
    ∀ n k s c fuel, (∀ j, j < n → create (k + j) = none) →
      create (k + n) = some c → n + 1 ≤ fuel →
      addOneLoop create fuel k s = some (c, stimes s n) := by
  intro n
  induction n with
  | zero =>
    intro k s c fuel hfail hc hfuel
    cases fuel with
    | zero => omega
    | succ fuel =>
      rw [addOneLoop]
      simp only [Nat.add_zero] at hc
      rw [hc]
      simp [stimes]
  | succ n ih =>
    intro k s c fuel hfail hc hfuel
    cases fuel with
    | zero => omega
    | succ fuel =>
      rw [addOneLoop]
      have h0 : create k = none := by
        have := hfail 0 (by omega)
        simpa using this
      rw [h0]
      have hrec := ih (k + 1) (nextStime s) c fuel
        (fun j hj => by
          have := hfail (j + 1) (by omega)
          simpa [Nat.add_assoc, Nat.add_comm 1 j] using this)
        (by
          have : k + 1 + n = k + (n + 1) := by omega
          rw [this]
          exact hc)
        (by omega)
      rw [hrec, stimes_succ]

/--
C8: the `_add_one` creation loop re-invokes `_new_connection` until it
returns a truthy handle, treating a falsy result as a transient failure;
between attempts it sleeps delays that start at the short base `0.1` s
(`1` tenth), double on each failed attempt while below the `400` s
threshold, and are capped at `409.6` s (`4096` tenths), so no
inter-attempt wait exceeds that bound.
-/
theorem addOne_backoff (create : Nat → Option Nat) (n c fuel : Nat)
    (hfail : ∀ j, j < n → create j = none) (hc : create n = some c)
    (hfuel : n + 1 ≤ fuel) :
    addOneLoop create fuel 0 1 =
        some (c, (List.range n).map (fun j => min (2 ^ j) 4096)) ∧
    (∀ d ∈ (List.range n).map (fun j => min (2 ^ j) 4096), d ≤ 4096) ∧
    stimeAt 0 = 1 ∧
    (∀ j, stimeAt j < 4000 → stimeAt (j + 1) = 2 * stimeAt j) := by
  refine ⟨?_, ?_, rfl, ?_⟩
  · have h := addOneLoop_go create n 0 1 c fuel
      (fun j hj => by simpa using hfail j hj) (by simpa using hc) hfuel
    have hmap : stimes 1 n = (List.range n).map (fun j => min (2 ^ j) 4096) := by
      unfold stimes
      refine List.map_congr_left (fun j _ => ?_)
      exact stimeAt_eq j
    rw [h, hmap]
  · intro d hd
    simp only [List.mem_map] at hd
    obtain ⟨j, _, rfl⟩ := hd
    exact min_le_right _ _
  · intro j hj
    have hstep : stimeAt (j + 1) = nextStime (stimeAt j) :=
      Function.iterate_succ_apply' nextStime j 1
    rw [hstep, nextStime, if_pos hj]

/-- Witness for `addOne_backoff`: creation fails twice then succeeds with
handle `9`; the loop sleeps `0.1` s then `0.2` s and returns `9`. -/
theorem addOne_backoff_witness :
    addOneLoop (fun k => if k < 2 then none else some 9) 3 0 1 =
      some (9, (List.range 2).map (fun j => min (2 ^ j) 4096)) :=
  (addOne_backoff (fun k => if k < 2 then none else some 9) 2 9 3
    (fun j hj => by simp [hj]) (by norm_num) (by omega)).1

/--
Helper for C9: draining `n ≤ |conn|` slots of a pool whose semaphore
count equals its queue length rotates the deque by `n`, leaves the
semaphore count unchanged, and invokes the close hook once on each of the
first `n` handles, in queue order.
-/
theorem drainGo_spec :
    ∀ (n : Nat) (conn : List Nat), n ≤ conn.length →
      drainGo conn conn.length n =
        some (conn.rotate n, conn.length, (conn.take n).map CloseEv.hook) := by
  intro n
  induction n with
  | zero =>
    intro conn h
    simp [drainGo]
  | succ n ih =>
    intro conn h
    match conn with
    | [] => simp at h
    | c :: rest =>
      show drainGo (c :: rest) (rest.length + 1) (n + 1) = _
      rw [drainGo]
      have hlen : (rest ++ [c]).length = rest.length + 1 := by simp
      have hn : n ≤ (rest ++ [c]).length := by
        simp only [List.length_cons] at h
        omega
      have ihh := ih (rest ++ [c]) hn
      rw [hlen] at ihh
      rw [ihh]
      have hrot : (c :: rest).rotate (n + 1) = (rest ++ [c]).rotate n :=
        List.rotate_cons_succ rest c n
      have htake : (c :: rest).take (n + 1) = c :: (rest ++ [c]).take n := by
        rw [List.take_succ_cons, List.take_append_of_le_length (by
          simp only [List.length_cons] at h
          omega)]
      rw [hrot, htake]
      simp [hlen]

/--
C9: `close` is idempotent with respect to the closed flag.  On a pool
that is not yet closed and is fully populated (permit count = queue
length = capacity), the first call acquires each of the `size` slots
through the normal `get` protocol, invoking `_close_connection` on every
connection exactly once, and the `closed = True` assignment is the last
event of the trace (after all slots were drained).  A second call
performs no work: it returns the same state and an empty event trace.
(The drained connections are appended back to the deque by `get`'s
clean-exit path, so the queue and permit count are unchanged.)
-/
theorem close_idempotent (p : Pool)
    (hcl : p.closed = false) (hsem : p.sem = p.conn.length)
    (hfull : p.conn.length = p.size) :
    ∃ p', ConnectionPool.closeRun p =
        some (p', (p.conn.map CloseEv.hook) ++ [CloseEv.setClosed]) ∧
      p'.closed = true ∧ p'.conn = p.conn ∧ p'.sem = p.sem ∧
      ConnectionPool.closeRun p' = some (p', []) := by
  have hdrain := drainGo_spec p.conn.length p.conn (le_refl _)
  rw [List.rotate_length, List.take_length] at hdrain
  have hdrain' : drainGo p.conn p.sem p.size =
      some (p.conn, p.sem, p.conn.map CloseEv.hook) := by
    rw [hsem, ← hfull]
    exact hdrain
  refine ⟨{ p with closed := true }, ?_, rfl, rfl, ?_, ?_⟩
  · unfold ConnectionPool.closeRun
    rw [hcl]
    simp only [Bool.false_eq_true, if_false]
    rw [hdrain']
  · simp [hsem]
  · unfold ConnectionPool.closeRun
    simp

/-- Witness for `close_idempotent` on the concrete full capacity-1 pool:
the hook fires on handle `7` strictly before the closed flag is set. -/
theorem close_idempotent_witness :
    ∃ p', ConnectionPool.closeRun pOpen1 =
        some (p', [CloseEv.hook 7, CloseEv.setClosed]) ∧
      p'.closed = true ∧ ConnectionPool.closeRun p' = some (p', []) := by
  obtain ⟨p', h1, h2, _, _, h5⟩ := close_idempotent pOpen1 rfl rfl rfl
  exact ⟨p', by simpa [pOpen1] using h1, h2, h5⟩
